import Mathlib

/-!
Verification of the spyrograph `_Cycloid` module (`src/spyrograph/_cycloid.py`).

The module defines the class `_Cycloid`, a subclass of `_Trochoid`, with
four operations: the constructor (which forces the trace-point offset `d`
to the rolling radius `r`), the classmethods `create_range` (parameter
sweep), `n_cusps` (cusp-count-to-radius derivation) and `animate`
(sequential playback of a family of shapes).

The base class `_Trochoid` is not part of the sources at hand; the pieces
of it that this module calls (`__init__`, `_set_int_to_list`, `trace`)
are modelled from the specification and are marked as such in their doc
comments.  Everything else is translated directly from
`src/spyrograph/_cycloid.py`.

Numbers are embedded as rationals: all arithmetic the claims exercise is
exact (Python raises ZeroDivisionError on division by zero, embedded via
the `Except` monad).
-/

namespace Spyrograph

/-- Dynamic errors.  `ValueError` and `ZeroDivisionError` and `NameError`
are the Python exception classes the module can raise;
`DegenerateParameterError` is the spec's name (§7) for the failure of the
underlying curve construction when the rolling radius is zero. -/
inductive PyError where
  | ValueError (msg : String)
  | ZeroDivisionError
  | NameError (name : String)
  | DegenerateParameterError
  deriving Repr, DecidableEq

/-- The spec's `ConfigurationError` kind (§7): the spec groups the
`ValueError`s raised for ambiguous / conflicting configuration under this
abstract name; in the Python source they are plain `ValueError`s. -/
def ConfigurationError (msg : String) : PyError :=
  PyError.ValueError msg

/-- Python division: raises `ZeroDivisionError` when the divisor is zero,
otherwise returns the exact quotient. -/
def pyDiv (a b : ℚ) : Except PyError ℚ :=
  if b = 0 then Except.error PyError.ZeroDivisionError else Except.ok (a / b)

/-- Modelled from the spec (§4.1): the half-open arithmetic range
`start, start+step, start+2*step, ...` of values strictly before `stop`
(np.arange semantics); a step pointing away from `stop` (or a zero step)
yields the empty sequence. -/
def arange (start stop step : ℚ) : List ℚ :=
  if step = 0 then []
  else (List.range (Int.toNat ⌈(stop - start) / step⌉)).map
    (fun i => start + step * (i : ℚ))

/-- Modelled from the spec (§4.1, `ThetaDomainBuilder`, implemented by the
absent `_Trochoid` base class): an explicit `thetas` list excludes
`theta_start`/`theta_stop`/`theta_step`; the range form needs all three;
anything else is a `ConfigurationError`. -/
def buildThetaDomain (thetas : Option (List ℚ))
    (theta_start theta_stop theta_step : Option ℚ) :
    Except PyError (List ℚ) :=
  match thetas with
  | some ts =>
      if theta_start.isSome ∨ theta_stop.isSome ∨ theta_step.isSome then
        Except.error (ConfigurationError ("conflicting domain specification"))
      else Except.ok ts
  | none =>
      match theta_start, theta_stop, theta_step with
      | some a, some b, some s => Except.ok (arange a b s)
      | _, _, _ =>
          Except.error
            (ConfigurationError ("ambiguous or missing angular domain"))

/-- The curve model (spec §3, `CurveModel`): the validated parameter
bundle plus the resolved theta domain.  Point sequences are computed from
these fields by the curve equations and are not needed by the claims. -/
structure CurveModel where
  R : ℚ
  r : ℚ
  d : ℚ
  origin : ℚ × ℚ
  thetaDomain : List ℚ
  deriving Repr, DecidableEq

/-- Modelled from the spec (§4.3, `_Trochoid.__init__` of the absent base
class): resolves the theta domain (propagating `ConfigurationError`),
rejects `r = 0` with `DegenerateParameterError`, and otherwise stores the
immutable parameter bundle. -/
def trochoidInit (R r d : ℚ) (thetas : Option (List ℚ))
    (theta_start theta_stop theta_step : Option ℚ)
    (origin : ℚ × ℚ) : Except PyError CurveModel := do
  let dom ← buildThetaDomain thetas theta_start theta_stop theta_step
  if r = 0 then
    Except.error PyError.DegenerateParameterError
  else
    Except.ok { R := R, r := r, d := d, origin := origin, thetaDomain := dom }

/-- `_Cycloid.__init__` (src/spyrograph/_cycloid.py:14-19): delegates to
the base constructor passing `r` for the trace-point offset `d`; the
signature has no `d` parameter at all. -/
def cycloidInit (R r : ℚ) (thetas : Option (List ℚ))
    (theta_start theta_stop theta_step : Option ℚ)
    (origin : ℚ × ℚ) : Except PyError CurveModel :=
  trochoidInit R r r thetas theta_start theta_stop theta_step origin

/-- A `create_range` / `animate` parameter that is either a single number
or a list of numbers (the Python `Union[Number, List[Number]]`). -/
inductive NumOrList where
  | num (x : ℚ)
  | list (xs : List ℚ)
  deriving Repr, DecidableEq

/-- Python `isinstance(v, collections.abc.Iterable)` on a
`Union[Number, List[Number]]` value: lists are iterable, numbers are not. -/
def NumOrList.isIterable : NumOrList → Bool
  | .num _ => false
  | .list _ => true

/-- Modelled from the spec (§4.5, `_Trochoid._set_int_to_list` of the
absent base class): normalizes a scalar into a one-element sequence and
leaves a sequence unchanged. -/
def set_int_to_list : NumOrList → List ℚ
  | .num x => [x]
  | .list xs => xs

/-- Error-propagating left-to-right map: the semantics of a Python `for`
loop that constructs one object per element and appends it, where any
raised exception aborts the whole call. -/
def exceptMapM {α β : Type} (f : α → Except PyError β) :
    List α → Except PyError (List β)
  | [] => Except.ok []
  | x :: xs => do
      let y ← f x
      let ys ← exceptMapM f xs
      Except.ok (y :: ys)

/-- `_Cycloid.create_range` (src/spyrograph/_cycloid.py:138-193): counts
how many of `R`, `r` are iterable and raises `ValueError` if more than
one is; otherwise normalizes both to lists and builds one shape per
`(Ri, rj)` pair by nested loops, outer over `R`, inner over `r`. -/
def create_range (R r : NumOrList) (thetas : Option (List ℚ))
    (theta_start theta_stop theta_step : Option ℚ)
    (origin : ℚ × ℚ) : Except PyError (List CurveModel) := do
  let varied := (if R.isIterable then 1 else 0) + (if r.isIterable then 1 else 0)
  if varied > 1 then
    Except.error (PyError.ValueError
      ("More than one input variable was varied. Please only pass one list of varying inputs and try again."))
  else
    let R_arr := set_int_to_list R
    let r_arr := set_int_to_list r
    let rows ← exceptMapM (fun Ri =>
      exceptMapM (fun rj =>
        cycloidInit Ri rj thetas theta_start theta_stop theta_step origin)
        r_arr) R_arr
    Except.ok rows.flatten

/-- `_Cycloid.n_cusps` (src/spyrograph/_cycloid.py:195-244): computes
`r = R / n` (Python division, so `ZeroDivisionError` when `n = 0`; no
validation that `n` is a positive integer) and delegates to the cycloid
constructor. -/
def n_cusps (R n : ℚ) (thetas : Option (List ℚ))
    (theta_start theta_stop theta_step : Option ℚ)
    (origin : ℚ × ℚ) : Except PyError CurveModel := do
  let r ← pyDiv R n
  cycloidInit R r thetas theta_start theta_stop theta_step origin

/-- Observable rendering events emitted by `animate`, in order. -/
inductive Event where
  | clear
  | setup (size : ℚ × ℚ)
  | bgcolor (c : String)
  | draw (m : CurveModel)
  | sleep (t : ℚ)
  | exitOnClick
  deriving Repr, DecidableEq

/-- The names this module imports (src/spyrograph/_cycloid.py:5-10).
Note `turtle` is not among them, although line 136 references it. -/
def module_imports : List String :=
  ["numbers", "typing", "collections", "time", "spyrograph._trochoid"]

/-- Modelled from the spec (§6, the rendering collaborator's
`_Trochoid.trace`, absent base class): draws the model's point sequence
under the given styling and returns an opaque drawing-surface handle for
reuse on the next play. -/
def traceShape (m : CurveModel) (_screen : Option Unit)
    (_screen_size : ℚ × ℚ) (_screen_color _color : String) (_width : ℚ) :
    List Event × Option Unit :=
  ([Event.draw m], some ())

/-- One iteration of the `animate` loop body
(src/spyrograph/_cycloid.py:124-134): when a screen is present, clear it,
set it up and repaint the background; then trace the shape and sleep. -/
def animateStep (screen_size : ℚ × ℚ) (screen_color color : String)
    (width frame_pause : ℚ) (acc : List Event × Option Unit)
    (shape : CurveModel) : List Event × Option Unit :=
  let pre : List Event :=
    match acc.2 with
    | some _ => [Event.clear, Event.setup screen_size, Event.bgcolor screen_color]
    | none => []
  let traced := traceShape shape acc.2 screen_size screen_color color width
  (acc.1 ++ pre ++ traced.1 ++ [Event.sleep frame_pause], traced.2)

/-- `_Cycloid.animate` (src/spyrograph/_cycloid.py:53-136): builds the
shapes via `create_range`, then for each shape in order optionally resets
the screen, traces the shape and sleeps `frame_pause`; finally, when
`exit_on_click` is set, evaluates `turtle.exitonclick()` — the name
`turtle` resolves against the module imports and, being absent, raises
`NameError`.  The function body has no `return` statement, so on normal
termination the Python return value is `None` (embedded as `none`).
The result is the emitted event trace paired with the outcome. -/
def animate (R r : NumOrList) (thetas : Option (List ℚ))
    (theta_start theta_stop theta_step : Option ℚ) (origin : ℚ × ℚ)
    (screen_size : ℚ × ℚ) (screen_color : String) (exit_on_click : Bool)
    (color : String) (width frame_pause : ℚ) (screen : Option Unit) :
    List Event × Except PyError (Option (List CurveModel)) :=
  match create_range R r thetas theta_start theta_stop theta_step origin with
  | Except.error e => ([], Except.error e)
  | Except.ok shapes_arr =>
      let final := shapes_arr.foldl
        (animateStep screen_size screen_color color width frame_pause)
        ([], screen)
      if exit_on_click then
        if ("turtle") ∈ module_imports then
          (final.1 ++ [Event.exitOnClick], Except.ok none)
        else
          (final.1, Except.error (PyError.NameError ("turtle")))
      else
        (final.1, Except.ok none)

/-- The events one loop iteration emits: the optional screen reset block,
the draw of the model, then the pacing sleep. -/
def frameEvents (hasScreen : Bool) (screen_size : ℚ × ℚ)
    (screen_color : String) (frame_pause : ℚ) (m : CurveModel) :
    List Event :=
  (if hasScreen then
    [Event.clear, Event.setup screen_size, Event.bgcolor screen_color]
  else []) ++ [Event.draw m, Event.sleep frame_pause]

/-- The full event trace of playing a list of models in order: after the
first model, a screen handle always exists, so every later frame starts
with the reset block. -/
def framesTrace (hasScreen : Bool) (screen_size : ℚ × ℚ)
    (screen_color : String) (frame_pause : ℚ) :
    List CurveModel → List Event
  | [] => []
  | m :: rest =>
      frameEvents hasScreen screen_size screen_color frame_pause m ++
        framesTrace true screen_size screen_color frame_pause rest

/-- Projects the model out of a draw event. -/
def eventDraw : Event → Option CurveModel
  | .draw m => some m
  | _ => none

/-! ### Helper lemmas -/

/-- Characterisation of a successful cycloid construction: the theta
domain resolved, `r` is nonzero, and the model carries the inputs with
`d = r`. -/
theorem cycloidInit_ok_iff (R r : ℚ) (thetas : Option (List ℚ))
    (a b c : Option ℚ) (o : ℚ × ℚ) (m : CurveModel) :
    cycloidInit R r thetas a b c o = Except.ok m ↔
      buildThetaDomain thetas a b c = Except.ok m.thetaDomain ∧
      r ≠ 0 ∧ m.R = R ∧ m.r = r ∧ m.d = r ∧ m.origin = o := by
  unfold cycloidInit trochoidInit
  cases h : buildThetaDomain thetas a b c with
  | error e =>
      simp only [h, bind, Except.bind]
      constructor
      · intro hc; cases hc
      · rintro ⟨hc, -⟩; cases hc
  | ok dom =>
      simp only [h, bind, Except.bind]
      by_cases hr : r = 0
      · simp only [hr, ite_true]
        constructor
        · intro hc; cases hc
        · rintro ⟨-, hne, -⟩; exact absurd rfl hne
      · simp only [if_neg hr]
        constructor
        · intro hc
          cases hc
          exact ⟨rfl, hr, rfl, rfl, rfl, rfl⟩
        · rintro ⟨hdom, -, hR, hrr, hd, ho⟩
          cases hdom
          cases m
          simp only [Except.ok.injEq, CurveModel.mk.injEq]
          exact ⟨hR.symm, hrr.symm, hd.symm, ho.symm, trivial⟩

/-- A successful `exceptMapM` relates input and output pointwise. -/
theorem exceptMapM_ok_forall₂ {α β : Type} (f : α → Except PyError β) :
    ∀ (xs : List α) (ys : List β), exceptMapM f xs = Except.ok ys →
      List.Forall₂ (fun x y => f x = Except.ok y) xs ys := by
  intro xs
  induction xs with
  | nil =>
      intro ys h
      simp only [exceptMapM, Except.ok.injEq] at h
      rw [← h]
      exact List.Forall₂.nil
  | cons x xs ih =>
      intro ys h
      simp only [exceptMapM, bind, Except.bind] at h
      cases hfx : f x with
      | error e => rw [hfx] at h; cases h
      | ok y =>
          rw [hfx] at h
          cases hrest : exceptMapM f xs with
          | error e => rw [hrest] at h; cases h
          | ok ys₀ =>
              rw [hrest] at h
              simp only [Except.ok.injEq] at h
              rw [← h]
              exact List.Forall₂.cons hfx (ih ys₀ hrest)

/-- Flattening a list of rows of constant length `k` gives `m * k`
elements. -/
theorem flatten_length_const {α : Type} (k : ℕ) :
    ∀ (L : List (List α)), (∀ row ∈ L, row.length = k) →
      L.flatten.length = L.length * k := by
  intro L
  induction L with
  | nil => intro _; simp
  | cons row L ih =>
      intro h
      have hrow : row.length = k := h row (by simp)
      have hL : ∀ r ∈ L, r.length = k := fun r hr => h r (by simp [hr])
      simp only [List.flatten_cons, List.length_append, List.length_cons,
        ih hL, hrow]
      ring

/-- Indexing into the flattening of rows of constant length `k`:
position `i * k + j` lands at entry `j` of row `i`. -/
theorem flatten_getElem_const {α : Type} (k : ℕ) :
    ∀ (L : List (List α)), (∀ row ∈ L, row.length = k) →
      ∀ i j (hi : i < L.length), j < k →
        L.flatten[i * k + j]? = (L.get ⟨i, hi⟩)[j]? := by
  intro L
  induction L with
  | nil => intro _ i j hi _; exact absurd hi (by simp)
  | cons row L ih =>
      intro h i j hi hj
      have hrow : row.length = k := h row (by simp)
      have hL : ∀ r ∈ L, r.length = k := fun r hr => h r (by simp [hr])
      cases i with
      | zero =>
          simp only [List.flatten_cons, Nat.zero_mul, Nat.zero_add]
          rw [List.getElem?_append, if_pos (by omega)]
          rfl
      | succ i₀ =>
          have hi₀ : i₀ < L.length := by
            simpa [Nat.succ_lt_succ_iff] using hi
          have hidx : (i₀ + 1) * k + j = row.length + (i₀ * k + j) := by
            rw [hrow]; ring
          simp only [List.flatten_cons, hidx]
          rw [List.getElem?_append, if_neg (by omega)]
          have : row.length + (i₀ * k + j) - row.length = i₀ * k + j := by
            omega
          rw [this]
          exact ih hL i₀ j hi₀ hj

/-- Every element of a successful `exceptMapM` output is the image of a
member of the input. -/
theorem exceptMapM_ok_mem {α β : Type} (f : α → Except PyError β) :
    ∀ (xs : List α) (ys : List β), exceptMapM f xs = Except.ok ys →
      ∀ y ∈ ys, ∃ x ∈ xs, f x = Except.ok y := by
  intro xs
  induction xs with
  | nil =>
      intro ys h y hy
      simp only [exceptMapM, Except.ok.injEq] at h
      rw [← h] at hy
      cases hy
  | cons x xs ih =>
      intro ys h y hy
      simp only [exceptMapM, bind, Except.bind] at h
      cases hfx : f x with
      | error e => rw [hfx] at h; cases h
      | ok y₀ =>
          rw [hfx] at h
          cases hrest : exceptMapM f xs with
          | error e => rw [hrest] at h; cases h
          | ok ys₀ =>
              rw [hrest] at h
              simp only [Except.ok.injEq] at h
              rw [← h] at hy
              rcases List.mem_cons.mp hy with rfl | hy₀
              · exact ⟨x, by simp, hfx⟩
              · rcases ih ys₀ hrest y hy₀ with ⟨x₀, hx₀, hfx₀⟩
                exact ⟨x₀, by simp [hx₀], hfx₀⟩

/-- Decomposition of a successful `create_range` call into the nested
loop output. -/
theorem create_range_ok_rows (R r : NumOrList) (thetas : Option (List ℚ))
    (a b c : Option ℚ) (o : ℚ × ℚ) (ms : List CurveModel)
    (h : create_range R r thetas a b c o = Except.ok ms) :
    ∃ rows,
      exceptMapM (fun Ri =>
          exceptMapM (fun rj => cycloidInit Ri rj thetas a b c o)
            (set_int_to_list r)) (set_int_to_list R) = Except.ok rows ∧
      ms = rows.flatten := by
  rcases R with x | xs <;> rcases r with y | ys <;>
    simp only [create_range, NumOrList.isIterable, Bool.false_eq_true,
      if_false, if_true, Nat.zero_add, Nat.add_zero, bind, Except.bind,
      gt_iff_lt, Nat.lt_irrefl, Nat.not_lt_zero, Nat.zero_lt_one,
      Nat.lt_one_iff, Nat.one_lt_two, ite_true, ite_false,
      Nat.reduceAdd, Nat.reduceLT, reduceIte] at h <;>
  [skip; skip; skip; cases h] <;>
  · cases hrows : exceptMapM (fun Ri =>
        exceptMapM (fun rj => cycloidInit Ri rj thetas a b c o)
          (set_int_to_list _)) (set_int_to_list _) with
    | error e => rw [hrows] at h; cases h
    | ok rows =>
        rw [hrows] at h
        simp only [Except.ok.injEq] at h
        exact ⟨rows, rfl, h.symm⟩

/-- The fold of the `animate` loop body appends exactly the frame trace
of the shapes, and leaves a screen handle behind whenever at least one
shape was played. -/
theorem foldl_animateStep (ssize : ℚ × ℚ) (scolor color : String)
    (width fp : ℚ) :
    ∀ (shapes : List CurveModel) (acc : List Event) (scr : Option Unit),
      shapes.foldl (animateStep ssize scolor color width fp) (acc, scr) =
        (acc ++ framesTrace scr.isSome ssize scolor fp shapes,
          if shapes.isEmpty then scr else some ()) := by
  intro shapes
  induction shapes with
  | nil =>
      intro acc scr
      simp [framesTrace]
  | cons m rest ih =>
      intro acc scr
      have hstep : animateStep ssize scolor color width fp (acc, scr) m =
          (acc ++ frameEvents scr.isSome ssize scolor fp m, some ()) := by
        cases scr <;>
          simp [animateStep, traceShape, frameEvents, List.append_assoc]
      simp only [List.foldl_cons, hstep, ih, framesTrace]
      simp [List.append_assoc]

/-- The draw events of a frame trace are exactly the shapes, in order. -/
theorem framesTrace_draws (ssize : ℚ × ℚ) (scolor : String) (fp : ℚ) :
    ∀ (shapes : List CurveModel) (hasScreen : Bool),
      (framesTrace hasScreen ssize scolor fp shapes).filterMap eventDraw =
        shapes := by
  intro shapes
  induction shapes with
  | nil => intro hasScreen; simp [framesTrace]
  | cons m rest ih =>
      intro hasScreen
      cases hasScreen <;>
        simp [framesTrace, frameEvents, eventDraw, List.filterMap_append, ih]

/-! ### Claim theorems -/

/-- C1: for every `R`, `r`, theta specification and origin, any curve
model produced by the cycloid constructor has its trace-point offset `d`
equal to the rolling-circle radius `r`; the constructor signature offers
no way to supply a different `d`. -/
theorem cycloid_forces_d_eq_r (R r : ℚ) (thetas : Option (List ℚ))
    (a b c : Option ℚ) (o : ℚ × ℚ) (m : CurveModel)
    (h : cycloidInit R r thetas a b c o = Except.ok m) :
    m.d = m.r ∧ m.d = r := by
  rcases (cycloidInit_ok_iff R r thetas a b c o m).mp h with ⟨-, -, -, hr, hd, -⟩
  exact ⟨hd.trans hr.symm, hd⟩

/-- Witness for C1 at `R = 10`, `r = 4`, `thetas = [0]`. -/
theorem cycloid_forces_d_eq_r_witness :
    ({ R := 10, r := 4, d := 4, origin := (0, 0),
       thetaDomain := [0] } : CurveModel).d =
      ({ R := 10, r := 4, d := 4, origin := (0, 0),
         thetaDomain := [0] } : CurveModel).r ∧
    ({ R := 10, r := 4, d := 4, origin := (0, 0),
       thetaDomain := [0] } : CurveModel).d = 4 :=
  cycloid_forces_d_eq_r 10 4 (some [0]) none none none (0, 0) _ (by rfl)

/-- C4: for every `R` and every nonzero `n` (no validation restricts `n`
to positive integers), a model returned by `n_cusps` has rolling radius
`r = R / n` and `d = r`. -/
theorem n_cusps_r_eq_R_div_n (R n : ℚ) (thetas : Option (List ℚ))
    (a b c : Option ℚ) (o : ℚ × ℚ) (m : CurveModel)
    (hn : n ≠ 0)
    (h : n_cusps R n thetas a b c o = Except.ok m) :
    m.r = R / n ∧ m.d = m.r := by
  unfold n_cusps pyDiv at h
  simp only [if_neg hn, bind, Except.bind] at h
  rcases (cycloidInit_ok_iff R (R / n) thetas a b c o m).mp h with
    ⟨-, -, -, hr, hd, -⟩
  exact ⟨hr, hd.trans hr.symm⟩

/-- Witness for C4 at `R = 10`, `n = 5`, `thetas = [0]`: the produced
model has `r = 2`. -/
theorem n_cusps_r_eq_R_div_n_witness :
    ((5 : ℚ) ≠ 0) ∧
    (({ R := 10, r := 2, d := 2, origin := (0, 0),
        thetaDomain := [0] } : CurveModel).r = 10 / 5 ∧
     ({ R := 10, r := 2, d := 2, origin := (0, 0),
        thetaDomain := [0] } : CurveModel).d =
       ({ R := 10, r := 2, d := 2, origin := (0, 0),
          thetaDomain := [0] } : CurveModel).r) :=
  ⟨by norm_num,
   n_cusps_r_eq_R_div_n 10 5 (some [0]) none none none (0, 0) _
     (by norm_num)
     (by norm_num [n_cusps, pyDiv, cycloidInit, trochoidInit,
        buildThetaDomain, bind, Except.bind])⟩

/-- C5: for every `R` and theta specification, `n_cusps` with `n = 0`
fails with `ZeroDivisionError`; the division is evaluated before the
constructor is called, so the error result carries no curve model. -/
theorem n_cusps_zero_division (R : ℚ) (thetas : Option (List ℚ))
    (a b c : Option ℚ) (o : ℚ × ℚ) :
    n_cusps R 0 thetas a b c o = Except.error PyError.ZeroDivisionError := by
  unfold n_cusps pyDiv
  simp [bind, Except.bind]

/-- C2: with at most one of `R`, `r` a sequence, a successful
`create_range` call returns exactly `m * k` models (`m`, `k` the lengths
of the normalized `R` and `r` sequences), ordered R-major / r-minor: the
model at flat position `i * k + j` has parameters `(Ri, rj)`. -/
theorem create_range_family_shape (R r : NumOrList)
    (thetas : Option (List ℚ)) (a b c : Option ℚ) (o : ℚ × ℚ)
    (ms : List CurveModel)
    (_hone : ¬(R.isIterable = true ∧ r.isIterable = true))
    (h : create_range R r thetas a b c o = Except.ok ms) :
    ms.length = (set_int_to_list R).length * (set_int_to_list r).length ∧
    ∀ i j (hi : i < (set_int_to_list R).length)
      (hj : j < (set_int_to_list r).length),
      ∃ mij, ms[i * (set_int_to_list r).length + j]? = some mij ∧
        mij.R = (set_int_to_list R).get ⟨i, hi⟩ ∧
        mij.r = (set_int_to_list r).get ⟨j, hj⟩ := by
  rcases create_range_ok_rows R r thetas a b c o ms h with ⟨rows, hrows, rfl⟩
  have houter := exceptMapM_ok_forall₂ _ _ _ hrows
  rw [List.forall₂_iff_get] at houter
  obtain ⟨hlen, hpt⟩ := houter
  have hrowlen : ∀ row ∈ rows, row.length = (set_int_to_list r).length := by
    intro row hrow
    rcases List.mem_iff_get.mp hrow with ⟨⟨i, hi⟩, rfl⟩
    have hinner := exceptMapM_ok_forall₂ _ _ _ (hpt i (by omega) hi)
    exact (List.Forall₂.length_eq hinner).symm
  refine ⟨?_, ?_⟩
  · rw [flatten_length_const _ rows hrowlen, hlen]
  · intro i j hi hj
    have hi' : i < rows.length := hlen ▸ hi
    have hinner := exceptMapM_ok_forall₂ _ _ _ (hpt i hi hi')
    rw [List.forall₂_iff_get] at hinner
    obtain ⟨hleni, hpti⟩ := hinner
    have hj' : j < (rows.get ⟨i, hi'⟩).length := by rw [← hleni]; exact hj
    refine ⟨(rows.get ⟨i, hi'⟩).get ⟨j, hj'⟩, ?_, ?_⟩
    · rw [flatten_getElem_const _ rows hrowlen i j hi' hj]
      simp [List.getElem?_eq_getElem hj', List.get_eq_getElem]
    · rcases (cycloidInit_ok_iff _ _ thetas a b c o _).mp (hpti j hj hj')
        with ⟨-, -, hR, hr, -, -⟩
      exact ⟨hR, hr⟩

/-- Witness for C2 at `R = 10` (scalar), `r = [4, 5, 6]`,
`thetas = [0]`: three models, and the one at flat position
`0 * 3 + 1` has `R = 10`, `r = 5`. -/
theorem create_range_family_shape_witness :
    (([{ R := 10, r := 4, d := 4, origin := (0, 0), thetaDomain := [0] },
       { R := 10, r := 5, d := 5, origin := (0, 0), thetaDomain := [0] },
       { R := 10, r := 6, d := 6, origin := (0, 0), thetaDomain := [0] }] :
        List CurveModel).length =
      (set_int_to_list (NumOrList.num 10)).length *
        (set_int_to_list (NumOrList.list [4, 5, 6])).length) ∧
    (∃ mij,
      ([{ R := 10, r := 4, d := 4, origin := (0, 0), thetaDomain := [0] },
        { R := 10, r := 5, d := 5, origin := (0, 0), thetaDomain := [0] },
        { R := 10, r := 6, d := 6, origin := (0, 0), thetaDomain := [0] }] :
         List CurveModel)[0 * (set_int_to_list (NumOrList.list [4, 5, 6])).length + 1]? =
          some mij ∧
        mij.R = (set_int_to_list (NumOrList.num 10)).get ⟨0, by decide⟩ ∧
        mij.r = (set_int_to_list (NumOrList.list [4, 5, 6])).get ⟨1, by decide⟩) :=
  ⟨(create_range_family_shape (NumOrList.num 10) (NumOrList.list [4, 5, 6])
      (some [0]) none none none (0, 0) _ (by decide) (by rfl)).1,
   (create_range_family_shape (NumOrList.num 10) (NumOrList.list [4, 5, 6])
      (some [0]) none none none (0, 0) _ (by decide) (by rfl)).2
     0 1 (by decide) (by decide)⟩

/-- C3: whenever both `R` and `r` are sequences, `create_range` fails
with the spec's `ConfigurationError` (the source's `ValueError`).  The
conclusion holds for every theta specification and origin — including
invalid ones — showing the check precedes any model construction, and the
error result carries no model. -/
theorem create_range_both_varied_error (R r : NumOrList)
    (thetas : Option (List ℚ)) (a b c : Option ℚ) (o : ℚ × ℚ)
    (hR : R.isIterable = true) (hr : r.isIterable = true) :
    create_range R r thetas a b c o =
      Except.error (ConfigurationError
        ("More than one input variable was varied. Please only pass one list of varying inputs and try again.")) := by
  cases R with
  | num x => simp [NumOrList.isIterable] at hR
  | list Rs =>
      cases r with
      | num y => simp [NumOrList.isIterable] at hr
      | list rs => rfl

/-- Witness for C3 at `R = [1, 2]`, `r = [3, 4]`. -/
theorem create_range_both_varied_error_witness :
    create_range (NumOrList.list [1, 2]) (NumOrList.list [3, 4])
        (some [0]) none none none (0, 0) =
      Except.error (ConfigurationError
        ("More than one input variable was varied. Please only pass one list of varying inputs and try again.")) :=
  create_range_both_varied_error (NumOrList.list [1, 2])
    (NumOrList.list [3, 4]) (some [0]) none none none (0, 0) rfl rfl

/-- C6: every model produced by one `create_range` call carries the
origin supplied to that call, and any two models in the output have the
same resolved theta domain (built once from the shared theta
specification); only `R` and `r` vary. -/
theorem create_range_shared_theta_origin (R r : NumOrList)
    (thetas : Option (List ℚ)) (a b c : Option ℚ) (o : ℚ × ℚ)
    (ms : List CurveModel)
    (h : create_range R r thetas a b c o = Except.ok ms) :
    (∀ m ∈ ms, m.origin = o ∧
      buildThetaDomain thetas a b c = Except.ok m.thetaDomain) ∧
    ∀ m₁ ∈ ms, ∀ m₂ ∈ ms, m₁.thetaDomain = m₂.thetaDomain := by
  rcases create_range_ok_rows R r thetas a b c o ms h with ⟨rows, hrows, rfl⟩
  have hmem : ∀ m ∈ rows.flatten, m.origin = o ∧
      buildThetaDomain thetas a b c = Except.ok m.thetaDomain := by
    intro m hm
    rcases List.mem_flatten.mp hm with ⟨row, hrow, hmrow⟩
    rcases exceptMapM_ok_mem _ _ _ hrows row hrow with ⟨Ri, -, hRi⟩
    rcases exceptMapM_ok_mem _ _ _ hRi m hmrow with ⟨rj, -, hrj⟩
    rcases (cycloidInit_ok_iff _ _ thetas a b c o _).mp hrj with
      ⟨hdom, -, -, -, -, ho⟩
    exact ⟨ho, hdom⟩
  refine ⟨hmem, ?_⟩
  intro m₁ h₁ m₂ h₂
  have d₁ := (hmem m₁ h₁).2
  have d₂ := (hmem m₂ h₂).2
  rw [d₁] at d₂
  exact (Except.ok.inj d₂)

/-- Witness for C6 at `R = 10`, `r = [4, 5]`, `thetas = [0]`,
`origin = (1, 2)`. -/
theorem create_range_shared_theta_origin_witness :
    (∀ m ∈ ([{ R := 10, r := 4, d := 4, origin := (1, 2), thetaDomain := [0] },
             { R := 10, r := 5, d := 5, origin := (1, 2), thetaDomain := [0] }] :
        List CurveModel), m.origin = ((1 : ℚ), (2 : ℚ)) ∧
      buildThetaDomain (some [0]) none none none = Except.ok m.thetaDomain) ∧
    ∀ m₁ ∈ ([{ R := 10, r := 4, d := 4, origin := (1, 2), thetaDomain := [0] },
             { R := 10, r := 5, d := 5, origin := (1, 2), thetaDomain := [0] }] :
        List CurveModel),
      ∀ m₂ ∈ ([{ R := 10, r := 4, d := 4, origin := (1, 2), thetaDomain := [0] },
               { R := 10, r := 5, d := 5, origin := (1, 2), thetaDomain := [0] }] :
          List CurveModel), m₁.thetaDomain = m₂.thetaDomain :=
  create_range_shared_theta_origin (NumOrList.num 10) (NumOrList.list [4, 5])
    (some [0]) none none none (1, 2) _ (by rfl)

/-- C7: `create_range` is deterministic — two calls on identical inputs
that return successfully return equal model lists (hence the same length,
ordering and parameters). -/
theorem create_range_deterministic (R r : NumOrList)
    (thetas : Option (List ℚ)) (a b c : Option ℚ) (o : ℚ × ℚ)
    (ms₁ ms₂ : List CurveModel)
    (h₁ : create_range R r thetas a b c o = Except.ok ms₁)
    (h₂ : create_range R r thetas a b c o = Except.ok ms₂) :
    ms₁ = ms₂ := by
  rw [h₁] at h₂
  cases h₂
  rfl

/-- Witness for C7 at `R = 10`, `r = [4, 5, 6]`, `thetas = [0]`. -/
theorem create_range_deterministic_witness :
    ([{ R := 10, r := 4, d := 4, origin := (0, 0), thetaDomain := [0] },
      { R := 10, r := 5, d := 5, origin := (0, 0), thetaDomain := [0] },
      { R := 10, r := 6, d := 6, origin := (0, 0), thetaDomain := [0] }] :
      List CurveModel) =
    [{ R := 10, r := 4, d := 4, origin := (0, 0), thetaDomain := [0] },
     { R := 10, r := 5, d := 5, origin := (0, 0), thetaDomain := [0] },
     { R := 10, r := 6, d := 6, origin := (0, 0), thetaDomain := [0] }] :=
  create_range_deterministic (NumOrList.num 10) (NumOrList.list [4, 5, 6])
    (some [0]) none none none (0, 0) _ _ (by rfl) (by rfl)

/-- C8: `animate` plays the models produced by `create_range` strictly in
their output order — its event trace is exactly the concatenation, model
by model, of the optional screen reset, the draw request and the
`frame_pause` sleep, and the subsequence of draw events equals the model
list itself. -/
theorem animate_draws_in_order (R r : NumOrList) (thetas : Option (List ℚ))
    (a b c : Option ℚ) (o : ℚ × ℚ) (ssize : ℚ × ℚ) (scolor : String)
    (eoc : Bool) (color : String) (width fp : ℚ) (screen : Option Unit)
    (shapes : List CurveModel)
    (hcr : create_range R r thetas a b c o = Except.ok shapes) :
    (animate R r thetas a b c o ssize scolor eoc color width fp screen).1 =
      framesTrace screen.isSome ssize scolor fp shapes ∧
    ((animate R r thetas a b c o ssize scolor eoc color width fp
        screen).1).filterMap eventDraw = shapes := by
  have h1 : (animate R r thetas a b c o ssize scolor eoc color width fp
      screen).1 = framesTrace screen.isSome ssize scolor fp shapes := by
    simp only [animate, hcr]
    rw [foldl_animateStep]
    cases eoc with
    | false => rfl
    | true => rw [if_pos rfl, if_neg (by decide)]; simp
  exact ⟨h1, by rw [h1]; exact framesTrace_draws ssize scolor fp shapes _⟩

/-- Witness for C8 at `R = 10`, `r = [4, 5]`, `thetas = [0]`, no screen. -/
theorem animate_draws_in_order_witness :
    (animate (NumOrList.num 10) (NumOrList.list [4, 5]) (some [0]) none none
        none (0, 0) (100, 100) ("white") false ("black") 1 1 none).1 =
      framesTrace (none : Option Unit).isSome (100, 100) ("white") 1
        [{ R := 10, r := 4, d := 4, origin := (0, 0), thetaDomain := [0] },
         { R := 10, r := 5, d := 5, origin := (0, 0), thetaDomain := [0] }] ∧
    ((animate (NumOrList.num 10) (NumOrList.list [4, 5]) (some [0]) none none
        none (0, 0) (100, 100) ("white") false ("black") 1 1
        none).1).filterMap eventDraw =
      [{ R := 10, r := 4, d := 4, origin := (0, 0), thetaDomain := [0] },
       { R := 10, r := 5, d := 5, origin := (0, 0), thetaDomain := [0] }] :=
  animate_draws_in_order (NumOrList.num 10) (NumOrList.list [4, 5])
    (some [0]) none none none (0, 0) (100, 100) ("white") false ("black")
    1 1 none _ (by rfl)

/-- C9: with `exit_on_click = true`, once all shapes have been played
`animate` evaluates `turtle.exitonclick()`; the name `turtle` is not
among the module's imports, so the call raises `NameError` — after every
model has already been drawn.  With `exit_on_click = false` the branch is
never reached and the call ends normally. -/
theorem animate_exit_on_click_name_error (R r : NumOrList)
    (thetas : Option (List ℚ)) (a b c : Option ℚ) (o : ℚ × ℚ)
    (ssize : ℚ × ℚ) (scolor : String) (color : String) (width fp : ℚ)
    (screen : Option Unit) (shapes : List CurveModel)
    (hcr : create_range R r thetas a b c o = Except.ok shapes) :
    (("turtle") ∉ module_imports ∧
      (animate R r thetas a b c o ssize scolor true color width fp
          screen).2 = Except.error (PyError.NameError ("turtle"))) ∧
    ((animate R r thetas a b c o ssize scolor true color width fp
        screen).1).filterMap eventDraw = shapes ∧
    (animate R r thetas a b c o ssize scolor false color width fp
        screen).2 = Except.ok none := by
  refine ⟨⟨by decide, ?_⟩, ?_, ?_⟩
  · simp only [animate, hcr, if_true]
    rw [if_neg (by decide)]
  · simp only [animate, hcr, if_true]
    rw [foldl_animateStep, if_neg (by decide)]
    simpa using framesTrace_draws ssize scolor fp shapes screen.isSome
  · simp only [animate, hcr]
    rfl

/-- Witness for C9 at `R = 10`, `r = [4, 5]`, `thetas = [0]`. -/
theorem animate_exit_on_click_name_error_witness :
    (("turtle") ∉ module_imports ∧
      (animate (NumOrList.num 10) (NumOrList.list [4, 5]) (some [0]) none
          none none (0, 0) (100, 100) ("white") true ("black") 1 1
          none).2 = Except.error (PyError.NameError ("turtle"))) ∧
    ((animate (NumOrList.num 10) (NumOrList.list [4, 5]) (some [0]) none
        none none (0, 0) (100, 100) ("white") true ("black") 1 1
        none).1).filterMap eventDraw =
      [{ R := 10, r := 4, d := 4, origin := (0, 0), thetaDomain := [0] },
       { R := 10, r := 5, d := 5, origin := (0, 0), thetaDomain := [0] }] ∧
    (animate (NumOrList.num 10) (NumOrList.list [4, 5]) (some [0]) none
        none none (0, 0) (100, 100) ("white") false ("black") 1 1
        none).2 = Except.ok none :=
  animate_exit_on_click_name_error (NumOrList.num 10)
    (NumOrList.list [4, 5]) (some [0]) none none none (0, 0) (100, 100)
    ("white") ("black") 1 1 none _ (by rfl)

/-- C10: whatever its inputs, when `animate` terminates normally its
Python return value is `None` — the body has no `return` statement, so
the list built by `create_range` is never handed back to the caller
(despite the declared return type `List[_Trochoid]`). -/
theorem animate_returns_none (R r : NumOrList) (thetas : Option (List ℚ))
    (a b c : Option ℚ) (o : ℚ × ℚ) (ssize : ℚ × ℚ) (scolor : String)
    (eoc : Bool) (color : String) (width fp : ℚ) (screen : Option Unit)
    (v : Option (List CurveModel))
    (h : (animate R r thetas a b c o ssize scolor eoc color width fp
        screen).2 = Except.ok v) :
    v = none := by
  unfold animate at h
  cases hcr : create_range R r thetas a b c o with
  | error e => rw [hcr] at h; cases h
  | ok shapes =>
      rw [hcr] at h
      simp only at h
      cases eoc with
      | false =>
          rw [if_neg (by simp)] at h
          exact (Except.ok.inj h).symm
      | true =>
          rw [if_pos rfl, if_neg (by decide)] at h
          cases h

/-- Witness for C10 at `R = 10`, `r = [4, 5]`, `thetas = [0]`,
`exit_on_click = false`. -/
theorem animate_returns_none_witness :
    (none : Option (List CurveModel)) = none :=
  animate_returns_none (NumOrList.num 10) (NumOrList.list [4, 5])
    (some [0]) none none none (0, 0) (100, 100) ("white") false ("black")
    1 1 none none (by rfl)

end Spyrograph
